import Mathlib

/-!
Verification development for the nanobot subagent core.

Shallow embedding of `nanobot/agent/subagent.py` and
`nanobot/agent/tools/plugins.py`.  Pure Python functions become Lean
functions; the asynchronous subagent run becomes an explicit function from
a (possibly fallible) provider script to the run's observable outcome
(message history, announcements, logs, terminal state).

Components of the repository referenced from `subagent.py` but whose source
files are not part of the snapshot (`nanobot/agent/tools/registry.py`,
`nanobot/providers/base.py`, the concrete tool classes, the bus and the
config schema) are modelled from the spec; each such definition carries a
doc comment saying so.
-/

set_option autoImplicit false

namespace Nanobot

/-- A log entry: a level (`"info"`, `"warning"`, `"error"`, `"debug"`)
together with the rendered message, mirroring `loguru` calls. -/
structure LogEntry where
  level : String
  text : String
  deriving DecidableEq, Repr

/-- Modelled from the spec: a tool-call record exposed by a provider
response (`nanobot/providers/base.py` is not in the snapshot): "an ordered
sequence of tool-call records each with an opaque identity, a tool name,
and a structured argument mapping".  The argument mapping is kept opaque
as its JSON rendering, which is all `subagent.py` ever does with it. -/
structure ToolCall where
  id : String
  name : String
  argumentsJson : String
  deriving DecidableEq, Repr

/-- Modelled from the spec: a provider response
(`nanobot/providers/base.py` is not in the snapshot): "textual content
(nullable), an explicit boolean `has tool calls`, and, when true, an
ordered sequence of tool-call records". -/
structure ProviderResponse where
  content : Option String
  tool_calls : List ToolCall
  deriving DecidableEq, Repr

/-- Modelled from the spec: the response's "explicit boolean `has tool
calls`" holds exactly when the tool-call sequence is non-empty. -/
def ProviderResponse.has_tool_calls (r : ProviderResponse) : Bool :=
  !r.tool_calls.isEmpty

/-- One entry of the role-tagged message list fed to the provider
(`subagent.py` builds these as dicts with a `role` key). -/
inductive Message where
  | system (content : String)
  | user (content : String)
  | assistant (content : String) (tool_calls : List ToolCall)
  | tool (tool_call_id : String) (name : String) (content : String)
  deriving DecidableEq, Repr

/-- Modelled from the spec: `InboundMessage` (`nanobot/bus/events.py` is
not in the snapshot): "{origination channel tag, a sender tag, a composite
destination key formed as origin_channel:origin_chat_id, textual
content}". -/
structure InboundMessage where
  channel : String
  sender_id : String
  chat_id : String
  content : String
  deriving DecidableEq, Repr

/-- The origin dict built in `SubagentManager.spawn` (lines 96-99). -/
structure Origin where
  channel : String
  chat_id : String
  deriving DecidableEq, Repr

/-- A provider that can be invoked with the current message list; a thrown
provider failure is an `Except.error` carrying the exception text
(spec: "The provider may fail ...; such failure surfaces as a thrown
error to the loop"). -/
abbrev Provider : Type := List Message → Except String ProviderResponse

/-- The scoped registry's `execute`: per the spec of the registry contract
it converts any tool failure into a descriptive error string, so dispatch
is total and returns the string placed into the tool-result turn. -/
abbrev ToolExec : Type := ToolCall → String

/-- Outcome of the `while iteration < max_iterations` loop of
`SubagentManager._run_subagent` (lines 167-213): either a provider call
threw, or the loop finished with the final message list, the
`final_result` variable (None when no break happened, or the possibly
null content of the first response without tool calls), and the number of
provider invocations performed. -/
inductive LoopOutcome where
  | thrown (error : String) (calls : Nat)
  | finished (messages : List Message) (final_result : Option String) (calls : Nat)
  deriving DecidableEq, Repr

/-- The assistant turn appended when the response carries tool calls
(`subagent.py` lines 183-198): content is `response.content or ""` and the
tool calls are recorded in order. -/
def assistantTurn (response : ProviderResponse) : Message :=
  Message.assistant (response.content.getD "") response.tool_calls

/-- The tool-result turns appended after executing the response's tool
calls through the scoped registry (`subagent.py` lines 201-210), one per
invocation, in invocation order. -/
def toolTurns (exec : ToolExec) (tcs : List ToolCall) : List Message :=
  tcs.map (fun tc => Message.tool tc.id tc.name (exec tc))

/-- The agent loop of `_run_subagent` (lines 167-213).  `fuel` is the
number of remaining iterations (`max_iterations - iteration`); `calls`
counts provider invocations so far.  Mirrors: invoke the provider; if the
response has tool calls, append the assistant turn and one tool-result
turn per call and continue; otherwise `final_result = response.content`
and break. -/
def runLoop (chat : Provider) (exec : ToolExec) :
    Nat → List Message → Nat → LoopOutcome
  | 0, msgs, calls => LoopOutcome.finished msgs none calls
  | fuel + 1, msgs, calls =>
    match chat msgs with
    | Except.error e => LoopOutcome.thrown e calls
    | Except.ok response =>
      if response.has_tool_calls then
        runLoop chat exec fuel
          (msgs ++ (assistantTurn response :: toolTurns exec response.tool_calls))
          (calls + 1)
      else
        LoopOutcome.finished msgs response.content (calls + 1)

/-- The exhaustion message built at `subagent.py` lines 216-220. -/
def exhaustMsg (max_iterations : Nat) : String :=
  "Task did NOT complete: the subagent ran out of iterations " ++
  "(max " ++ Nat.repr max_iterations ++ "). The task may need to be broken into " ++
  "smaller pieces, or the iteration limit needs to be increased."

/-- The envelope built by `SubagentManager._announce_result`
(lines 292-322): status text from the status tag, the structured content
string, published as a system-originated `InboundMessage` addressed to
`origin_channel:origin_chat_id`. -/
def announceResult (label task result : String) (origin : Origin)
    (status : String) : InboundMessage :=
  let status_text := if status = "ok" then "completed successfully" else "failed"
  let announce_content :=
    "[Subagent '" ++ label ++ "' " ++ status_text ++ "]\n\nTask: " ++ task ++
    "\n\nResult:\n" ++ result ++
    "\n\nSummarize this naturally for the user. Keep it brief (1-2 sentences). " ++
    "Do not mention technical details like \"subagent\" or task IDs."
  { channel := "system"
    sender_id := "subagent"
    chat_id := origin.channel ++ ":" ++ origin.chat_id
    content := announce_content }

/-- Terminal state of a run, per the spec's task state machine
(`running -> {completed | exhausted | errored}`); in the code these are
the three branches at `subagent.py` lines 215-230. -/
inductive TermState where
  | completed
  | exhausted
  | errored
  deriving DecidableEq, Repr

/-- Observable outcome of one `_run_subagent` execution. -/
structure RunReport where
  announcements : List InboundMessage
  result : String
  status : String
  logLevel : String
  termState : TermState
  providerCalls : Nat
  deriving DecidableEq, Repr

/-- `SubagentManager._run_subagent` after tools and prompt are built
(lines 161-230): seed the message list with the system prompt and the task
as first user turn, run the bounded loop, then announce: exhaustion
(`final_result is None`) with the exhaustion wording, status "error" and a
warning log; success with the content, status "ok" and an info log; a
thrown failure, caught by the `except` clause, with `"Error: " + str(e)`,
status "error" and an error log. -/
def run_subagent (chat : Provider) (exec : ToolExec) (max_iterations : Nat)
    (label task : String) (origin : Origin) (system_prompt : String) : RunReport :=
  let messages : List Message := [Message.system system_prompt, Message.user task]
  match runLoop chat exec max_iterations messages 0 with
  | LoopOutcome.thrown e calls =>
    let error_msg := "Error: " ++ e
    { announcements := [announceResult label task error_msg origin "error"]
      result := error_msg
      status := "error"
      logLevel := "error"
      termState := TermState.errored
      providerCalls := calls }
  | LoopOutcome.finished _ none calls =>
    let final_result := exhaustMsg max_iterations
    { announcements := [announceResult label task final_result origin "error"]
      result := final_result
      status := "error"
      logLevel := "warning"
      termState := TermState.exhausted
      providerCalls := calls }
  | LoopOutcome.finished _ (some final_result) calls =>
    { announcements := [announceResult label task final_result origin "ok"]
      result := final_result
      status := "ok"
      logLevel := "info"
      termState := TermState.completed
      providerCalls := calls }

/-- A tool instance, reduced to what the registry and the claims observe:
its registry name and an identity tag distinguishing instances.  The
concrete tool classes (`filesystem.py`, `shell.py`, `web.py`) are not in
the snapshot; per `_TOOL_NAME_MAP` in `subagent.py` each class registers
under its canonical name. -/
structure Tool where
  name : String
  tid : Nat
  deriving DecidableEq, Repr

/-- Modelled from the spec: the `ToolRegistry`
(`nanobot/agent/tools/registry.py` is not in the snapshot): "mapping from
tool-name to Tool (keys unique)"; `register(tool)` inserts or overwrites
by name.  A Python dict keeps insertion order, so an overwrite keeps the
entry's position. -/
abbrev ToolRegistry : Type := List Tool

/-- Modelled from the spec: `has(name) -> bool` membership check. -/
def ToolRegistry.has (reg : ToolRegistry) (name : String) : Bool :=
  reg.any (fun t => t.name == name)

/-- Modelled from the spec: name lookup in the registry mapping. -/
def ToolRegistry.lookup (reg : ToolRegistry) (name : String) : Option Tool :=
  reg.find? (fun t => t.name == name)

/-- Modelled from the spec: `register(tool)` inserts or overwrites by
name (dict assignment `self._tools[tool.name] = tool`). -/
def ToolRegistry.register (reg : ToolRegistry) (t : Tool) : ToolRegistry :=
  if reg.has t.name then reg.map (fun u => if u.name == t.name then t else u)
  else reg ++ [t]

/-- Modelled from the spec and from the fields `subagent.py` reads: the
global exec policy config (`nanobot/config/schema.py` is not in the
snapshot) with its enable flag and timeout. -/
structure ExecToolConfig where
  enabled : Bool
  timeout : Nat
  deriving DecidableEq, Repr

/-- The keys of `_TOOL_NAME_MAP` (`subagent.py` lines 20-28), in order. -/
def TOOL_NAME_MAP : List String :=
  ["read_file", "write_file", "edit_file", "list_dir", "exec", "web_search", "web_fetch"]

/-- A tool instance as registered by `subagent.py`: the class selected for
`name` exposes `name` as its registry name (see `_TOOL_NAME_MAP`);
constructor arguments (workspace, timeouts, keys) do not affect the
registry-relevant identity. -/
def mkTool (name : String) : Tool :=
  { name := name, tid := 0 }

/-- `SubagentManager._register_default_subagent_tools` (lines 232-248):
the four file tools, the exec tool only when the global flag is enabled,
and the two web tools. -/
def registerDefaultSubagentTools (exec_config : ExecToolConfig) : ToolRegistry :=
  let tools : ToolRegistry := []
  let tools := tools.register (mkTool "read_file")
  let tools := tools.register (mkTool "write_file")
  let tools := tools.register (mkTool "edit_file")
  let tools := tools.register (mkTool "list_dir")
  let tools := if exec_config.enabled then tools.register (mkTool "exec") else tools
  let tools := tools.register (mkTool "web_search")
  let tools := tools.register (mkTool "web_fetch")
  tools

/-- The warning logged for an unknown whitelist name
(`subagent.py` line 257). -/
def unknownToolLog (name : String) : LogEntry :=
  { level := "warning"
    text := "Unknown tool '" ++ name ++ "' in subagent profile, skipping" }

/-- The debug log for a profile requesting exec while globally disabled
(`subagent.py` line 262). -/
def execGatedLog : LogEntry :=
  { level := "debug"
    text := "Tool 'exec' requested by profile but globally disabled, skipping" }

/-- One iteration of the whitelist loop of
`SubagentManager._register_profile_tools` (lines 255-282): unknown names
are logged and skipped; `exec` is skipped when the global flag is
disabled; otherwise the class mapped to the name is registered. -/
def registerProfileToolsStep (exec_config : ExecToolConfig)
    (acc : ToolRegistry × List LogEntry) (name : String) :
    ToolRegistry × List LogEntry :=
  if !(TOOL_NAME_MAP.contains name) then
    (acc.1, acc.2 ++ [unknownToolLog name])
  else if name == "exec" && !exec_config.enabled then
    (acc.1, acc.2 ++ [execGatedLog])
  else
    (acc.1.register (mkTool name), acc.2)

/-- `SubagentManager._register_profile_tools` (lines 250-284): fold the
whitelist into a fresh registry, collecting the diagnostics. -/
def registerProfileTools (exec_config : ExecToolConfig)
    (tool_names : List String) : ToolRegistry × List LogEntry :=
  tool_names.foldl (registerProfileToolsStep exec_config) ([], [])

/-- Modelled from the spec: profile configuration shape
(`nanobot/config/schema.py` is not in the snapshot): "name -> {model:
optional string, max_iterations: integer, tools: optional ordered list of
tool names, skills: optional ordered list of skill names}".  An absent
(`None`) list and an empty list are both Python-falsy, so both are
modelled as `[]`. -/
structure SubagentProfile where
  model : Option String
  max_iterations : Nat
  tools : List String
  skills : List String
  deriving DecidableEq, Repr

/-- Tool assembly in `_run_subagent` (lines 137-141): with a profile whose
whitelist is truthy, only whitelisted tools; otherwise the default set. -/
def buildRunTools (exec_config : ExecToolConfig)
    (profile_config : Option SubagentProfile) : ToolRegistry × List LogEntry :=
  match profile_config with
  | some pc =>
    if !pc.tools.isEmpty then registerProfileTools exec_config pc.tools
    else (registerDefaultSubagentTools exec_config, [])
  | none => (registerDefaultSubagentTools exec_config, [])

/-- The capability sections of the subagent system prompt. -/
structure PromptSections where
  can_do : List String
  cannot_do : List String
  deriving DecidableEq, Repr

/-- The dynamic capability sections of
`SubagentManager._build_subagent_prompt` (lines 339-366): files, exec and
web entries chosen by the capability flags, the fixed final can-do entry,
and the three fixed restrictions always appended to the cannot list. -/
def buildPromptSections (has_exec has_web has_files : Bool) : PromptSections :=
  let can_do : List String :=
    if has_files then ["- Read and write files in the workspace"] else []
  let cannot_do : List String :=
    if has_files then [] else ["- Read or write files (no file tools available)"]
  let can_do :=
    if has_exec then can_do ++ ["- Execute shell commands"] else can_do
  let cannot_do :=
    if has_exec then cannot_do
    else cannot_do ++ ["- Execute shell commands (no exec tool available)"]
  let can_do :=
    if has_web then can_do ++ ["- Search the web and fetch web pages"] else can_do
  let cannot_do :=
    if has_web then cannot_do
    else cannot_do ++ ["- Search the web or fetch web pages (no web tools available)"]
  let can_do := can_do ++ ["- Complete the task thoroughly"]
  let cannot_do := cannot_do ++
    ["- Send messages directly to users (no message tool available)",
     "- Spawn other subagents",
     "- Access the main agent's conversation history"]
  { can_do := can_do, cannot_do := cannot_do }

/-- `SubagentManager._build_subagent_prompt` (lines 324-395) rendered to
the full prompt string; the ambient clock readings and the workspace path
are parameters.  (The `task` argument is accepted and unused, as in the
source.) -/
def build_subagent_prompt (_task : String) (now tz workspace skills_content : String)
    (has_exec has_web has_files : Bool) : String :=
  let s := buildPromptSections has_exec has_web has_files
  let can_section := String.intercalate "\n" s.can_do
  let cannot_section := String.intercalate "\n" s.cannot_do
  let skills_section :=
    if skills_content = "" then ""
    else "\n\n## Pre-loaded Skills\n" ++ skills_content
  "# Subagent\n\n## Current Time\n" ++ now ++ " (" ++ tz ++ ")\n\n" ++
  "You are a subagent spawned by the main agent to complete a specific task.\n\n" ++
  "## Rules\n1. Stay focused - complete only the assigned task, nothing else\n" ++
  "2. Your final response will be reported back to the main agent\n" ++
  "3. Do not initiate conversations or take on side tasks\n" ++
  "4. Be concise but informative in your findings\n\n" ++
  "## What You Can Do\n" ++ can_section ++
  "\n\n## What You Cannot Do\n" ++ cannot_section ++
  "\n\n## Workspace\nYour workspace is at: " ++ workspace ++
  "\nSkills are available at: " ++ workspace ++
  "/skills/ (read SKILL.md files as needed)" ++ skills_section ++
  "\n\nWhen you have completed the task, provide a clear summary of your findings or actions."

/-- The capability-flag derivation of `_run_subagent` (lines 148-159)
followed by the prompt-section construction: flags are read off the
actually-built scoped registry of the run. -/
def runPromptSections (exec_config : ExecToolConfig)
    (profile_config : Option SubagentProfile) : PromptSections :=
  let tools := (buildRunTools exec_config profile_config).1
  buildPromptSections (tools.has "exec")
    (tools.has "web_search" || tools.has "web_fetch")
    (tools.has "read_file" || tools.has "write_file")

/-- Lexicographic code-point comparison on character lists, the order
Python uses to compare strings. -/
def charListLe : List Char → List Char → Bool
  | [], _ => true
  | _ :: _, [] => false
  | c :: cs, d :: ds =>
    if c.toNat < d.toNat then true
    else if d.toNat < c.toNat then false
    else charListLe cs ds

/-- Lexicographic string comparison (Python string order). -/
def strLe (a b : String) : Bool :=
  charListLe a.data b.data

/-- Insert a string into a sorted list, keeping it sorted. -/
def insertString (x : String) : List String → List String
  | [] => [x]
  | y :: ys => if strLe x y then x :: y :: ys else y :: insertString x ys

/-- Sorting of strings, as `sorted(...)` over dict keys or paths. -/
def sortStrings : List String → List String
  | [] => []
  | x :: xs => insertString x (sortStrings xs)

/-- The `available` text of the unknown-profile error
(`subagent.py` line 90): the sorted, comma-joined profile names, or
`"(none)"` when the join is empty (Python falsy). -/
def availableProfilesText (profiles : List String) : String :=
  let joined := String.intercalate ", " (sortStrings profiles)
  if joined = "" then "(none)" else joined

/-- `display_label` (`subagent.py` line 94): the label when truthy (a
`None` or empty label is Python-falsy), else the first 30 characters of
the task with an ellipsis when truncated. -/
def displayLabel (label : Option String) (task : String) : String :=
  let fallback := task.take 30 ++ (if 30 < task.length then "..." else "")
  match label with
  | some l => if l = "" then fallback else l
  | none => fallback

/-- Observable outcome of one `spawn` call: the returned string, the keys
of `_running_tasks` afterwards, and how many background executions were
created by `asyncio.create_task`. -/
structure SpawnOutcome where
  message : String
  tasks : List String
  backgroundRuns : Nat
  deriving DecidableEq, Repr

/-- `SubagentManager.spawn` (lines 68-112): a truthy profile name missing
from the known profile set returns the error string and creates nothing;
otherwise one background task is created, registered under the fresh
`task_id`, and the acknowledgement string is returned. -/
def spawn (profiles : List String) (running_tasks : List String)
    (task : String) (label : Option String) (profile : Option String)
    (task_id : String) : SpawnOutcome :=
  let p := profile.getD ""
  if p != "" && !(profiles.contains p) then
    { message := "Error: Unknown profile '" ++ p ++ "'. Available profiles: " ++
        availableProfilesText profiles
      tasks := running_tasks
      backgroundRuns := 0 }
  else
    { message := "Subagent [" ++ displayLabel label task ++ "] started (id: " ++
        task_id ++ "). I'll notify you when it completes."
      tasks := running_tasks ++ [task_id]
      backgroundRuns := 1 }

/-- An observable event of a spawned run touching the live-task map or
the bus. -/
inductive TaskEvent where
  | insertTask (task_id : String)
  | announce (msg : InboundMessage)
  | removeTask (task_id : String)
  deriving DecidableEq, Repr

/-- Event trace of one successfully spawned run, under the cooperative
asyncio scheduling of the source: `spawn` calls `asyncio.create_task` and
inserts the task into `_running_tasks` with no intervening await, so the
background coroutine first runs after the insertion; the
`add_done_callback` hook removes the entry only once the coroutine has
finished (`subagent.py` lines 102-108). -/
def spawnRunTrace (chat : Provider) (exec : ToolExec) (max_iterations : Nat)
    (label task : String) (origin : Origin) (system_prompt : String)
    (task_id : String) : List TaskEvent :=
  TaskEvent.insertTask task_id ::
    ((run_subagent chat exec max_iterations label task origin
        system_prompt).announcements.map TaskEvent.announce ++
      [TaskEvent.removeTask task_id])

/-- What `PluginLoader._load_file` observes of one discovered class: a
successfully constructed tool instance (`_instantiate` succeeded, with
context or no-arg), or a constructor failure with the class name and the
exception text (`plugins.py` lines 99-103). -/
inductive ClassResult where
  | ok (t : Tool)
  | constructError (className : String) (error : String)
  deriving DecidableEq, Repr

/-- What importing one plugin file yields: an exception during import (or
an unbuildable module spec), or a module whose concrete `Tool` subclasses
are enumerated in `inspect.getmembers` order (`plugins.py` lines 83-98). -/
inductive FileContent where
  | importError (error : String)
  | module (classes : List ClassResult)
  deriving DecidableEq, Repr

/-- One `*.py` file in the tools directory: its filename and what loading
it yields. -/
structure PluginFile where
  name : String
  content : FileContent
  deriving DecidableEq, Repr

/-- Insert a plugin file into a list sorted by filename. -/
def insertFile (f : PluginFile) : List PluginFile → List PluginFile
  | [] => [f]
  | g :: gs => if strLe f.name g.name then f :: g :: gs else g :: insertFile f gs

/-- Lexicographic sort by filename, as `sorted(self.tools_dir.glob("*.py"))`
(`plugins.py` line 61). -/
def sortFiles : List PluginFile → List PluginFile
  | [] => []
  | f :: fs => insertFile f (sortFiles fs)

/-- Whether a filename starts with the reserved underscore marker
(`path.name.startswith("_")`, `plugins.py` line 62). -/
def startsWithUnderscore (s : String) : Bool :=
  match s.data with
  | [] => false
  | c :: _ => c == '_'

/-- The files actually processed by `PluginLoader.load` (lines 61-63):
sorted by filename, files whose name starts with `"_"` skipped. -/
def eligibleFiles (files : List PluginFile) : List PluginFile :=
  (sortFiles files).filter (fun f => !(startsWithUnderscore f.name))

/-- The warning logged when a plugin file fails to load
(`plugins.py` line 67). -/
def importFailLog (fname error : String) : LogEntry :=
  { level := "warning", text := "Failed to load plugin " ++ fname ++ ": " ++ error }

/-- The warning logged when a tool class fails to instantiate
(`plugins.py` line 102). -/
def constructFailLog (className fname error : String) : LogEntry :=
  { level := "warning"
    text := "Failed to instantiate " ++ className ++ " from " ++ fname ++ ": " ++ error }

/-- The debug log for a duplicate plugin tool name
(`plugins.py` line 107). -/
def dupToolLog (name fname : String) : LogEntry :=
  { level := "debug"
    text := "Duplicate plugin tool name '" ++ name ++ "' in " ++ fname ++ " -- skipped" }

/-- Membership test of the accumulated `tools` dict (`name in tools`). -/
def hasToolName (tools : List (String × Tool)) (name : String) : Bool :=
  tools.any (fun p => p.1 == name)

/-- Lookup in the accumulated name-to-tool mapping (dict indexing). -/
def lookupTool (tools : List (String × Tool)) (name : String) : Option Tool :=
  (tools.find? (fun p => p.1 == name)).map (fun p => p.2)

/-- The per-class body of `PluginLoader._load_file` (lines 94-109): a
constructor failure is logged and skipped; an instance whose name is
already in the dict is logged and skipped; otherwise
`tools[name] = instance` (Python dicts append new keys in insertion
order). -/
def processClass (fname : String) (acc : List (String × Tool) × List LogEntry)
    (c : ClassResult) : List (String × Tool) × List LogEntry :=
  match c with
  | ClassResult.constructError className error =>
    (acc.1, acc.2 ++ [constructFailLog className fname error])
  | ClassResult.ok t =>
    if hasToolName acc.1 t.name then (acc.1, acc.2 ++ [dupToolLog t.name fname])
    else (acc.1 ++ [(t.name, t)], acc.2)

/-- Processing of one eligible file in `PluginLoader.load` (lines 64-67):
an import failure is caught, logged as a warning and skipped; otherwise
`_load_file` folds the module's classes into the shared dict. -/
def processFile (acc : List (String × Tool) × List LogEntry)
    (f : PluginFile) : List (String × Tool) × List LogEntry :=
  match f.content with
  | FileContent.importError error => (acc.1, acc.2 ++ [importFailLog f.name error])
  | FileContent.module classes => classes.foldl (processClass f.name) acc

/-- `PluginLoader.load` on a cold cache (lines 40-70), with the directory
given as `none` when `self.tools_dir.is_dir()` is false (the scan
short-circuits to an empty mapping) and otherwise as the list of `*.py`
files found. -/
def loadTools (dir : Option (List PluginFile)) :
    List (String × Tool) × List LogEntry :=
  match dir with
  | none => ([], [])
  | some files => (eligibleFiles files).foldl processFile ([], [])

/-- The debug log for a plugin shadowed by a built-in
(`plugins.py` line 76). -/
def pluginSkippedLog (name : String) : LogEntry :=
  { level := "debug"
    text := "Plugin tool '" ++ name ++ "' skipped -- built-in takes priority" }

/-- The info log for an accepted plugin registration
(`plugins.py` line 79). -/
def pluginRegisteredLog (name : String) : LogEntry :=
  { level := "info", text := "Registered plugin tool '" ++ name ++ "'" }

/-- One step of `PluginLoader.register_into` (lines 72-79): a name the
registry already has is skipped with a debug log, otherwise the tool is
registered and the insertion logged. -/
def registerIntoStep (acc : ToolRegistry × List LogEntry)
    (p : String × Tool) : ToolRegistry × List LogEntry :=
  if acc.1.has p.1 then (acc.1, acc.2 ++ [pluginSkippedLog p.1])
  else (acc.1.register p.2, acc.2 ++ [pluginRegisteredLog p.1])

/-- `PluginLoader.register_into` (lines 72-79): merge the loaded mapping
into the target registry in mapping order. -/
def register_into (registry : ToolRegistry) (plugins : List (String × Tool)) :
    ToolRegistry × List LogEntry :=
  plugins.foldl registerIntoStep (registry, [])

/-- The loader's `_cache` field: `None` before the first `load`, the
memoized mapping afterwards (`plugins.py` lines 38, 46-47, 69). -/
abbrev PluginCache := Option (List (String × Tool))

/-- `PluginLoader.load` including the memoization (lines 46-47, 69): a
warm cache is returned as-is without touching the directory; a cold cache
scans once and stores the result. -/
def loadMemo (dir : Option (List PluginFile)) (cache : PluginCache) :
    List (String × Tool) × PluginCache :=
  match cache with
  | some c => (c, some c)
  | none =>
    let r := (loadTools dir).1
    (r, some r)

/-- The successfully instantiated tools of one file, in discovery order;
empty for a file that failed to import. -/
def fileOkTools (f : PluginFile) : List Tool :=
  match f.content with
  | FileContent.importError _ => []
  | FileContent.module classes =>
    classes.filterMap (fun c =>
      match c with
      | ClassResult.ok t => some t
      | ClassResult.constructError _ _ => none)

/-- Concatenation of the successfully instantiated tools of a file list,
in traversal order. -/
def streamOf : List PluginFile → List Tool
  | [] => []
  | f :: fs => fileOkTools f ++ streamOf fs

/-- All successfully instantiated tools of a directory, in the loader's
traversal order (sorted files, underscore files skipped, classes in
discovery order). -/
def successfulStream (files : List PluginFile) : List Tool :=
  streamOf (eligibleFiles files)

/-- First-wins insertion into the name-to-tool mapping: the pure content
of one `ClassResult.ok` step of `processClass`. -/
def addTool (tools : List (String × Tool)) (t : Tool) : List (String × Tool) :=
  if hasToolName tools t.name then tools else tools ++ [(t.name, t)]

/-- A file with every failure removed: an import failure becomes an empty
module, constructor failures are dropped. -/
def cleanseContent : FileContent → FileContent
  | FileContent.importError _ => FileContent.module []
  | FileContent.module classes =>
    FileContent.module (classes.filter (fun c =>
      match c with
      | ClassResult.ok _ => true
      | ClassResult.constructError _ _ => false))

/-- A file with its content cleansed; the filename is unchanged. -/
def cleanseFile (f : PluginFile) : PluginFile :=
  { name := f.name, content := cleanseContent f.content }

/-- A directory with every per-file and per-class failure removed;
filenames are unchanged. -/
def cleanseFiles (files : List PluginFile) : List PluginFile :=
  files.map cleanseFile

end Nanobot

namespace Nanobot

/-! ## Lemmas about the bounded agent loop -/

/-- A provider script that always returns tool calls drives the loop to
fuel exhaustion with `final_result` still unset, performing one provider
call per remaining iteration. -/
theorem runLoop_always_tools (chat : Provider) (exec : ToolExec)
    (h : ∀ msgs, ∃ r, chat msgs = Except.ok r ∧ r.has_tool_calls = true) :
    ∀ (fuel : Nat) (msgs : List Message) (calls : Nat),
      ∃ ms, runLoop chat exec fuel msgs calls = LoopOutcome.finished ms none (calls + fuel) := by
  intro fuel
  induction fuel with
  | zero => intro msgs calls; exact ⟨msgs, rfl⟩
  | succ k ih =>
    intro msgs calls
    obtain ⟨r, hok, htc⟩ := h msgs
    obtain ⟨ms, hms⟩ := ih (msgs ++ (assistantTurn r :: toolTurns exec r.tool_calls)) (calls + 1)
    refine ⟨ms, ?_⟩
    simp only [runLoop, hok, htc, if_true]
    rw [hms]
    congr 1
    omega

/-- A first response without tool calls ends the loop after exactly one
provider call, with the response's content as `final_result`. -/
theorem runLoop_first_no_tools (chat : Provider) (exec : ToolExec)
    (fuel : Nat) (msgs : List Message) (calls : Nat) (r : ProviderResponse)
    (hok : chat msgs = Except.ok r) (htc : r.has_tool_calls = false) :
    runLoop chat exec (fuel + 1) msgs calls =
      LoopOutcome.finished msgs r.content (calls + 1) := by
  simp only [runLoop, hok, htc]
  simp

/-- C1: for a run with `max_iterations >= 1` against a provider whose
responses carry non-null content, a first response without tool calls
terminates the run as completed (status "ok") after exactly one provider
invocation, and a provider that always returns tool calls terminates the
run as exhausted after exactly `max_iterations` provider invocations. -/
theorem subagent_loop_termination
    (chat : Provider) (exec : ToolExec) (max_iterations : Nat)
    (label task : String) (origin : Origin) (system_prompt : String)
    (hIter : 1 ≤ max_iterations)
    (hContent : ∀ msgs r, chat msgs = Except.ok r → r.content ≠ none) :
    ((∃ r, chat [Message.system system_prompt, Message.user task] = Except.ok r ∧
        r.has_tool_calls = false) →
      (run_subagent chat exec max_iterations label task origin system_prompt).termState =
          TermState.completed ∧
      (run_subagent chat exec max_iterations label task origin system_prompt).providerCalls = 1 ∧
      (run_subagent chat exec max_iterations label task origin system_prompt).status = "ok")
    ∧ ((∀ msgs, ∃ r, chat msgs = Except.ok r ∧ r.has_tool_calls = true) →
      (run_subagent chat exec max_iterations label task origin system_prompt).termState =
          TermState.exhausted ∧
      (run_subagent chat exec max_iterations label task origin system_prompt).providerCalls =
          max_iterations) := by
  constructor
  · rintro ⟨r, hok, htc⟩
    obtain ⟨k, hk⟩ : ∃ k, max_iterations = k + 1 := ⟨max_iterations - 1, by omega⟩
    have hloop := runLoop_first_no_tools chat exec k
      [Message.system system_prompt, Message.user task] 0 r hok htc
    rcases hc : r.content with _ | c
    · exact absurd hc (hContent _ r hok)
    · subst hk
      rw [hc] at hloop
      refine ⟨?_, ?_, ?_⟩ <;> simp [run_subagent, hloop]
  · intro h
    obtain ⟨ms, hms⟩ := runLoop_always_tools chat exec h max_iterations
      [Message.system system_prompt, Message.user task] 0
    rw [Nat.zero_add] at hms
    constructor <;> simp [run_subagent, hms]

/-- Witness for C1: a concrete script whose first response has content and
no tool calls completes in one provider call. -/
theorem subagent_loop_termination_witness :
    (run_subagent (fun _ => Except.ok { content := some "done", tool_calls := [] })
      (fun _ => "") 2 "lbl" "tsk" { channel := "cli", chat_id := "direct" } "sys").termState =
        TermState.completed ∧
    (run_subagent (fun _ => Except.ok { content := some "done", tool_calls := [] })
      (fun _ => "") 2 "lbl" "tsk" { channel := "cli", chat_id := "direct" } "sys").providerCalls =
        1 ∧
    (run_subagent (fun _ => Except.ok { content := some "done", tool_calls := [] })
      (fun _ => "") 2 "lbl" "tsk" { channel := "cli", chat_id := "direct" } "sys").status = "ok" :=
  (subagent_loop_termination
    (fun _ => Except.ok { content := some "done", tool_calls := [] })
    (fun _ => "") 2 "lbl" "tsk" { channel := "cli", chat_id := "direct" } "sys"
    (by omega)
    (fun _ r h => by injection h with h; subst h; simp)).1
    ⟨{ content := some "done", tool_calls := [] }, rfl, rfl⟩

/-- C10: a response with no tool calls and null content ends the loop at
once, yet the run is reported with the out-of-iterations exhaustion
wording and the "error" status, even though only 1 of the 5 permitted
iterations ran. -/
theorem null_content_announced_as_exhausted_error :
    (run_subagent (fun _ => Except.ok { content := none, tool_calls := [] })
      (fun _ => "") 5 "lbl" "tsk" { channel := "cli", chat_id := "direct" } "sys").providerCalls =
        1 ∧
    (run_subagent (fun _ => Except.ok { content := none, tool_calls := [] })
      (fun _ => "") 5 "lbl" "tsk" { channel := "cli", chat_id := "direct" } "sys").providerCalls <
        5 ∧
    (run_subagent (fun _ => Except.ok { content := none, tool_calls := [] })
      (fun _ => "") 5 "lbl" "tsk" { channel := "cli", chat_id := "direct" } "sys").result =
        exhaustMsg 5 ∧
    (run_subagent (fun _ => Except.ok { content := none, tool_calls := [] })
      (fun _ => "") 5 "lbl" "tsk" { channel := "cli", chat_id := "direct" } "sys").status =
        "error" ∧
    (run_subagent (fun _ => Except.ok { content := none, tool_calls := [] })
      (fun _ => "") 5 "lbl" "tsk" { channel := "cli", chat_id := "direct" } "sys").termState =
        TermState.exhausted :=
  ⟨rfl, by decide, rfl, rfl, rfl⟩

end Nanobot

namespace Nanobot

/-- C2 counterexample: a run exhausted after its single permitted
iteration is announced with the very same "error" status tag that a run
with a thrown provider failure receives, so the exhaustion announcement
does not carry a status tag distinct from the error status. -/
theorem exhaustion_status_counterexample :
    (run_subagent (fun _ => Except.ok ⟨some "x", [⟨"1", "t", "null"⟩]⟩)
      (fun _ => "r") 1 "lbl" "tsk" ⟨"cli", "direct"⟩ "sys").termState =
        TermState.exhausted ∧
    (run_subagent (fun _ => Except.error "boom")
      (fun _ => "r") 1 "lbl" "tsk" ⟨"cli", "direct"⟩ "sys").termState =
        TermState.errored ∧
    (run_subagent (fun _ => Except.ok ⟨some "x", [⟨"1", "t", "null"⟩]⟩)
      (fun _ => "r") 1 "lbl" "tsk" ⟨"cli", "direct"⟩ "sys").status = "error" ∧
    (run_subagent (fun _ => Except.ok ⟨some "x", [⟨"1", "t", "null"⟩]⟩)
      (fun _ => "r") 1 "lbl" "tsk" ⟨"cli", "direct"⟩ "sys").status =
      (run_subagent (fun _ => Except.error "boom")
        (fun _ => "r") 1 "lbl" "tsk" ⟨"cli", "direct"⟩ "sys").status :=
  ⟨rfl, rfl, rfl, rfl⟩

/-- The exhaustion wording never coincides with a thrown-failure message:
the former starts with `T`, the latter with `E`. -/
theorem exhaustMsg_ne_error_text (m : Nat) (e : String) :
    exhaustMsg m ≠ "Error: " ++ e := by
  intro h
  have h1 : (exhaustMsg m).data.head? = some 'T' := rfl
  have h2 : ("Error: " ++ e).data.head? = some 'E' := rfl
  rw [h] at h1
  rw [h1] at h2
  cases h2

/-- Shape of the report in the exhausted and errored terminal states:
exhaustion carries the exhaustion wording, status "error" and a warning
log; a thrown failure carries status "error", an error log and an
`Error:`-prefixed result. -/
theorem run_subagent_exhausted_shape
    (chat : Provider) (exec : ToolExec) (max_iterations : Nat)
    (label task : String) (origin : Origin) (system_prompt : String) :
    ((run_subagent chat exec max_iterations label task origin system_prompt).termState =
        TermState.exhausted →
      (run_subagent chat exec max_iterations label task origin system_prompt).result =
          exhaustMsg max_iterations ∧
      (run_subagent chat exec max_iterations label task origin system_prompt).status = "error" ∧
      (run_subagent chat exec max_iterations label task origin system_prompt).logLevel =
          "warning")
    ∧ ((run_subagent chat exec max_iterations label task origin system_prompt).termState =
        TermState.errored →
      (run_subagent chat exec max_iterations label task origin system_prompt).status = "error" ∧
      (run_subagent chat exec max_iterations label task origin system_prompt).logLevel =
          "error" ∧
      ∃ e, (run_subagent chat exec max_iterations label task origin system_prompt).result =
        "Error: " ++ e) := by
  rcases hL : runLoop chat exec max_iterations
      [Message.system system_prompt, Message.user task] 0 with ⟨e, calls⟩ | ⟨ms, fr, calls⟩
  · constructor
    · intro h
      simp [run_subagent, hL] at h
    · intro _
      refine ⟨?_, ?_, e, ?_⟩ <;> simp [run_subagent, hL]
  · rcases fr with _ | r
    · constructor
      · intro _
        refine ⟨?_, ?_, ?_⟩ <;> simp [run_subagent, hL]
      · intro h
        simp [run_subagent, hL] at h
    · constructor <;> intro h <;> simp [run_subagent, hL] at h

/-- C2 (amended): exhaustion is a terminal state distinct from a thrown
failure, announced with exhaustion-specific wording (never equal to the
`Error:`-prefixed wording of a thrown failure) and logged as a warning
rather than an error; but its announcement carries the same "error"
status tag that a thrown failure receives, not a distinct exhausted
status. -/
theorem exhaustion_distinct_wording_same_status
    (chat : Provider) (exec : ToolExec) (max_iterations : Nat)
    (label task : String) (origin : Origin) (system_prompt : String) :
    ((run_subagent chat exec max_iterations label task origin system_prompt).termState =
        TermState.exhausted →
      (run_subagent chat exec max_iterations label task origin system_prompt).result =
          exhaustMsg max_iterations ∧
      (run_subagent chat exec max_iterations label task origin system_prompt).status = "error" ∧
      (run_subagent chat exec max_iterations label task origin system_prompt).logLevel =
          "warning")
    ∧ ((run_subagent chat exec max_iterations label task origin system_prompt).termState =
        TermState.errored →
      (run_subagent chat exec max_iterations label task origin system_prompt).status = "error" ∧
      (run_subagent chat exec max_iterations label task origin system_prompt).logLevel =
          "error" ∧
      ∃ e, (run_subagent chat exec max_iterations label task origin system_prompt).result =
        "Error: " ++ e)
    ∧ (∀ (m : Nat) (e : String), exhaustMsg m ≠ "Error: " ++ e) :=
  ⟨(run_subagent_exhausted_shape chat exec max_iterations label task origin system_prompt).1,
    (run_subagent_exhausted_shape chat exec max_iterations label task origin system_prompt).2,
    exhaustMsg_ne_error_text⟩

/-- Witness for the amended C2: a concrete exhausted run shows the
exhaustion wording, the "error" status tag and the warning log level. -/
theorem exhaustion_distinct_wording_same_status_witness :
    (run_subagent (fun _ => Except.ok ⟨some "x", [⟨"1", "t", "null"⟩]⟩)
      (fun _ => "r") 1 "lbl" "tsk" ⟨"cli", "direct"⟩ "sys").result = exhaustMsg 1 ∧
    (run_subagent (fun _ => Except.ok ⟨some "x", [⟨"1", "t", "null"⟩]⟩)
      (fun _ => "r") 1 "lbl" "tsk" ⟨"cli", "direct"⟩ "sys").status = "error" ∧
    (run_subagent (fun _ => Except.ok ⟨some "x", [⟨"1", "t", "null"⟩]⟩)
      (fun _ => "r") 1 "lbl" "tsk" ⟨"cli", "direct"⟩ "sys").logLevel = "warning" :=
  (exhaustion_distinct_wording_same_status
    (fun _ => Except.ok ⟨some "x", [⟨"1", "t", "null"⟩]⟩)
    (fun _ => "r") 1 "lbl" "tsk" ⟨"cli", "direct"⟩ "sys").1 rfl

/-- Each terminating run publishes exactly one announcement. -/
theorem run_subagent_announce_single
    (chat : Provider) (exec : ToolExec) (max_iterations : Nat)
    (label task : String) (origin : Origin) (system_prompt : String) :
    ∃ m, (run_subagent chat exec max_iterations label task origin
      system_prompt).announcements = [m] := by
  rcases hL : runLoop chat exec max_iterations
      [Message.system system_prompt, Message.user task] 0 with ⟨e, calls⟩ | ⟨ms, fr, calls⟩
  · exact ⟨announceResult label task ("Error: " ++ e) origin "error",
      by simp [run_subagent, hL]⟩
  · rcases fr with _ | r
    · exact ⟨announceResult label task (exhaustMsg max_iterations) origin "error",
        by simp [run_subagent, hL]⟩
    · exact ⟨announceResult label task r origin "ok", by simp [run_subagent, hL]⟩

/-- C3: for every terminating run (success, exhaustion, or thrown
failure), the spawned run's event trace is exactly: insertion into the
live-task map, then exactly one announcement, then removal of the map
entry — removal never precedes the announcement. -/
theorem spawned_run_trace_shape
    (chat : Provider) (exec : ToolExec) (max_iterations : Nat)
    (label task : String) (origin : Origin) (system_prompt : String) (task_id : String) :
    ∃ m, spawnRunTrace chat exec max_iterations label task origin system_prompt task_id =
      [TaskEvent.insertTask task_id, TaskEvent.announce m, TaskEvent.removeTask task_id] := by
  obtain ⟨m, hm⟩ := run_subagent_announce_single chat exec max_iterations label task origin
    system_prompt
  exact ⟨m, by simp [spawnRunTrace, hm]⟩

end Nanobot

namespace Nanobot

/-! ## Lemmas about registries, capability assembly and the prompt -/

/-- A registry holds a name exactly when one of its entries has it. -/
theorem has_eq_true_iff (reg : ToolRegistry) (n : String) :
    reg.has n = true ↔ ∃ u ∈ reg, u.name = n := by
  simp [ToolRegistry.has, List.any_eq_true]

/-- Registering a tool adds exactly its name to the registry's name set. -/
theorem has_register_true_iff (reg : ToolRegistry) (t : Tool) (n : String) :
    (reg.register t).has n = true ↔ (reg.has n = true ∨ t.name = n) := by
  rw [has_eq_true_iff, has_eq_true_iff]
  unfold ToolRegistry.register
  by_cases h : reg.has t.name
  · rw [if_pos h]
    constructor
    · rintro ⟨u, hu, hname⟩
      rw [List.mem_map] at hu
      obtain ⟨v, hv, hvu⟩ := hu
      by_cases hc : v.name = t.name
      · rw [← hvu] at hname
        simp only [hc, beq_self_eq_true, if_true] at hname
        exact Or.inr hname
      · rw [← hvu] at hname
        simp only [beq_iff_eq, hc, if_false] at hname
        exact Or.inl ⟨v, hv, hname⟩
    · rintro (⟨u, hu, hname⟩ | hname)
      · by_cases hc : u.name = t.name
        · refine ⟨t, List.mem_map.mpr ⟨u, hu, by simp [hc]⟩, ?_⟩
          rw [← hc, hname]
        · exact ⟨u, List.mem_map.mpr ⟨u, hu, by simp [beq_iff_eq, hc]⟩, hname⟩
      · obtain ⟨v, hv, hvt⟩ := (has_eq_true_iff reg t.name).mp h
        exact ⟨t, List.mem_map.mpr ⟨v, hv, by simp [hvt]⟩, hname⟩
  · rw [if_neg h]
    constructor
    · rintro ⟨u, hu, hname⟩
      rcases List.mem_append.mp hu with hu | hu
      · exact Or.inl ⟨u, hu, hname⟩
      · rw [List.mem_singleton] at hu
        exact Or.inr (hu ▸ hname)
    · rintro (⟨u, hu, hname⟩ | hname)
      · exact ⟨u, List.mem_append.mpr (Or.inl hu), hname⟩
      · exact ⟨t, List.mem_append.mpr (Or.inr (List.mem_singleton.mpr rfl)), hname⟩

/-- Case analysis of the prompt sections over the three capability
flags: each positive capability line appears exactly when its flag is
set, and the three fixed restrictions always appear. -/
theorem buildPromptSections_spec (e w f : Bool) :
    (("- Execute shell commands" ∈ (buildPromptSections e w f).can_do) ↔ e = true) ∧
    (("- Search the web and fetch web pages" ∈ (buildPromptSections e w f).can_do) ↔ w = true) ∧
    (("- Read and write files in the workspace" ∈ (buildPromptSections e w f).can_do) ↔
      f = true) ∧
    "- Send messages directly to users (no message tool available)" ∈
      (buildPromptSections e w f).cannot_do ∧
    "- Spawn other subagents" ∈ (buildPromptSections e w f).cannot_do ∧
    "- Access the main agent's conversation history" ∈ (buildPromptSections e w f).cannot_do := by
  cases e <;> cases w <;> cases f <;> decide

/-- C4: the capability sections of a run's system prompt reflect the
actually-built scoped registry: the shell line appears exactly when the
exec tool was registered, the web line exactly when a web tool was
registered, the file line exactly when a read or write file tool was
registered, and the three fixed restrictions (no user messaging, no
nested spawning, no access to the parent conversation) always appear. -/
theorem prompt_reflects_registry (exec_config : ExecToolConfig)
    (profile_config : Option SubagentProfile) :
    (("- Execute shell commands" ∈ (runPromptSections exec_config profile_config).can_do) ↔
      (buildRunTools exec_config profile_config).1.has "exec" = true) ∧
    (("- Search the web and fetch web pages" ∈
        (runPromptSections exec_config profile_config).can_do) ↔
      ((buildRunTools exec_config profile_config).1.has "web_search" ||
        (buildRunTools exec_config profile_config).1.has "web_fetch") = true) ∧
    (("- Read and write files in the workspace" ∈
        (runPromptSections exec_config profile_config).can_do) ↔
      ((buildRunTools exec_config profile_config).1.has "read_file" ||
        (buildRunTools exec_config profile_config).1.has "write_file") = true) ∧
    "- Send messages directly to users (no message tool available)" ∈
      (runPromptSections exec_config profile_config).cannot_do ∧
    "- Spawn other subagents" ∈ (runPromptSections exec_config profile_config).cannot_do ∧
    "- Access the main agent's conversation history" ∈
      (runPromptSections exec_config profile_config).cannot_do :=
  buildPromptSections_spec
    ((buildRunTools exec_config profile_config).1.has "exec")
    ((buildRunTools exec_config profile_config).1.has "web_search" ||
      (buildRunTools exec_config profile_config).1.has "web_fetch")
    ((buildRunTools exec_config profile_config).1.has "read_file" ||
      (buildRunTools exec_config profile_config).1.has "write_file")

end Nanobot

namespace Nanobot

/-- Every name present in the registry built from a profile whitelist is a
known tool name, and `exec` is present only when globally enabled. -/
theorem registerProfileTools_fold_has (cfg : ExecToolConfig) :
    ∀ (names : List String) (acc : ToolRegistry × List LogEntry) (n : String),
      ((names.foldl (registerProfileToolsStep cfg) acc).1.has n = true) →
      acc.1.has n = true ∨
        (n ∈ names ∧ TOOL_NAME_MAP.contains n = true ∧ (n = "exec" → cfg.enabled = true)) := by
  intro names
  induction names with
  | nil => intro acc n h; exact Or.inl h
  | cons m ms ih =>
    intro acc n h
    rw [List.foldl_cons] at h
    rcases ih _ n h with hacc | ⟨hm, hk, he⟩
    · unfold registerProfileToolsStep at hacc
      by_cases h1 : TOOL_NAME_MAP.contains m = true
      · by_cases h2 : (m == "exec" && !cfg.enabled) = true
        · simp only [h1, Bool.not_true, if_false, h2, if_true] at hacc
          exact Or.inl hacc
        · simp only [h1, Bool.not_true, if_false, h2] at hacc
          rcases (has_register_true_iff _ _ _).mp hacc with hacc | hname
          · exact Or.inl hacc
          · right
            have hmn : m = n := hname
            subst hmn
            refine ⟨List.mem_cons_self m ms, h1, fun hme => ?_⟩
            rw [Bool.and_eq_true] at h2
            by_cases hen : cfg.enabled = true
            · exact hen
            · exfalso
              apply h2
              constructor
              · exact (beq_iff_eq).mpr hme
              · simp [Bool.not_eq_true] at hen
                simp [hen]
      · simp only [Bool.not_eq_true] at h1
        simp only [h1, Bool.not_false, if_true] at hacc
        exact Or.inl hacc
    · exact Or.inr ⟨List.mem_cons_of_mem m hm, hk, he⟩

/-- One whitelist step never erases an already-collected diagnostic. -/
theorem registerProfileToolsStep_logs_mono (cfg : ExecToolConfig)
    (acc : ToolRegistry × List LogEntry) (m : String) (l : LogEntry)
    (h : l ∈ acc.2) : l ∈ (registerProfileToolsStep cfg acc m).2 := by
  unfold registerProfileToolsStep
  split
  · exact List.mem_append.mpr (Or.inl h)
  · split
    · exact List.mem_append.mpr (Or.inl h)
    · exact h

/-- Folding the whitelist never erases an already-collected diagnostic. -/
theorem registerProfileTools_fold_logs_mono (cfg : ExecToolConfig) :
    ∀ (names : List String) (acc : ToolRegistry × List LogEntry) (l : LogEntry),
      l ∈ acc.2 → l ∈ (names.foldl (registerProfileToolsStep cfg) acc).2 := by
  intro names
  induction names with
  | nil => intro acc l h; exact h
  | cons m ms ih =>
    intro acc l h
    rw [List.foldl_cons]
    exact ih _ l (registerProfileToolsStep_logs_mono cfg acc m l h)

/-- An unknown whitelist name always leaves its warning diagnostic. -/
theorem registerProfileTools_unknown_logged (cfg : ExecToolConfig) :
    ∀ (names : List String) (acc : ToolRegistry × List LogEntry) (n : String),
      n ∈ names → TOOL_NAME_MAP.contains n = false →
      unknownToolLog n ∈ (names.foldl (registerProfileToolsStep cfg) acc).2 := by
  intro names
  induction names with
  | nil => intro acc n h; cases h
  | cons m ms ih =>
    intro acc n hmem hunk
    rw [List.foldl_cons]
    rcases List.mem_cons.mp hmem with heq | hmem
    · subst heq
      apply registerProfileTools_fold_logs_mono
      unfold registerProfileToolsStep
      rw [hunk]
      simp
    · exact ih _ n hmem hunk

/-- C5: for a profile whose whitelist contains "exec" while the global
exec flag is disabled, the scoped registry built for the run does not
contain the exec tool; and every unknown whitelist name is absent from
the registry and leaves a warning diagnostic, with registry construction
still producing a registry. -/
theorem exec_gating_and_unknown_names (exec_config : ExecToolConfig)
    (pc : SubagentProfile)
    (hexec : "exec" ∈ pc.tools) (hdis : exec_config.enabled = false) :
    (buildRunTools exec_config (some pc)).1.has "exec" = false ∧
    (∀ n, n ∈ pc.tools → TOOL_NAME_MAP.contains n = false →
      (buildRunTools exec_config (some pc)).1.has n = false ∧
      unknownToolLog n ∈ (buildRunTools exec_config (some pc)).2) := by
  have hne : pc.tools.isEmpty = false := by
    cases h : pc.tools with
    | nil => rw [h] at hexec; cases hexec
    | cons a as => rfl
  have hbuild : buildRunTools exec_config (some pc) =
      registerProfileTools exec_config pc.tools := by
    simp [buildRunTools, hne]
  rw [hbuild]
  constructor
  · by_cases h : (registerProfileTools exec_config pc.tools).1.has "exec" = true
    · rcases registerProfileTools_fold_has exec_config pc.tools ([], []) "exec" h with
        habs | ⟨_, _, hen⟩
      · cases habs
      · rw [hen rfl] at hdis; cases hdis
    · simpa using h
  · intro n hmem hunk
    constructor
    · by_cases h : (registerProfileTools exec_config pc.tools).1.has n = true
      · rcases registerProfileTools_fold_has exec_config pc.tools ([], []) n h with
          habs | ⟨_, hk, _⟩
        · cases habs
        · rw [hk] at hunk; cases hunk
      · simpa using h
    · exact registerProfileTools_unknown_logged exec_config pc.tools ([], []) n hmem hunk

/-- Witness for C5: with exec globally disabled, the profile whitelist
["exec", "bogus"] yields a registry without the exec tool. -/
theorem exec_gating_and_unknown_names_witness :
    (buildRunTools ⟨false, 60⟩ (some ⟨none, 5, ["exec", "bogus"], []⟩)).1.has "exec" = false :=
  (exec_gating_and_unknown_names ⟨false, 60⟩ ⟨none, 5, ["exec", "bogus"], []⟩
    (by decide) rfl).1

/-- C6: a truthy profile name outside the known profile set makes `spawn`
return the error string naming the (sorted, comma-joined) available
profiles, leave the live-task map unchanged, and create no background
execution; a known profile name makes `spawn` create exactly one
background execution, register the fresh task id, and return the
acknowledgement string containing the display label and the task id. -/
theorem spawn_validation (profiles running_tasks : List String) (task : String)
    (label : Option String) (p task_id : String) :
    (p ≠ "" → ¬ p ∈ profiles →
      spawn profiles running_tasks task label (some p) task_id =
        { message := "Error: Unknown profile '" ++ p ++ "'. Available profiles: " ++
            availableProfilesText profiles
          tasks := running_tasks
          backgroundRuns := 0 })
    ∧ (p ∈ profiles →
      spawn profiles running_tasks task label (some p) task_id =
        { message := "Subagent [" ++ displayLabel label task ++ "] started (id: " ++
            task_id ++ "). I'll notify you when it completes."
          tasks := running_tasks ++ [task_id]
          backgroundRuns := 1 }) := by
  constructor
  · intro hne hnmem
    have h1 : (p != "") = true := by simpa using hne
    have h2 : profiles.contains p = false := by
      simpa using hnmem
    simp [spawn, h1, h2]
    exact hnmem
  · intro hmem
    have h2 : profiles.contains p = true := by simpa using hmem
    simp [spawn, h2]
    intro _
    exact hmem

/-- Witness for C6: spawning with the unknown profile name "zz" against
the profile set ["research"] returns the error string and starts
nothing. -/
theorem spawn_validation_witness :
    spawn ["research"] [] "do it" none (some "zz") "abc123" =
      { message := "Error: Unknown profile 'zz'. Available profiles: " ++
          availableProfilesText ["research"]
        tasks := []
        backgroundRuns := 0 } :=
  (spawn_validation ["research"] [] "do it" none "zz" "abc123").1
    (by decide) (by decide)

end Nanobot

namespace Nanobot

/-! ## Lemmas about the plugin loader -/

theorem streamOf_cons (f : PluginFile) (fs : List PluginFile) :
    streamOf (f :: fs) = fileOkTools f ++ streamOf fs := rfl

theorem foldl_processClass_fst (fname : String) :
    ∀ (cs : List ClassResult) (acc : List (String × Tool) × List LogEntry),
      ((cs.foldl (processClass fname) acc).1) =
        (cs.filterMap (fun c =>
          match c with
          | ClassResult.ok t => some t
          | ClassResult.constructError _ _ => none)).foldl addTool acc.1 := by
  intro cs
  induction cs with
  | nil => intro acc; rfl
  | cons c cts ih =>
    intro acc
    rw [List.foldl_cons]
    cases c with
    | constructError cname err =>
      rw [ih]
      rfl
    | ok t =>
      rw [ih]
      simp only [List.filterMap_cons]
      rw [List.foldl_cons]
      congr 1
      unfold processClass addTool
      by_cases h : hasToolName acc.1 t.name = true
      · simp [h]
      · simp only [Bool.not_eq_true] at h
        simp [h]

theorem foldl_processFile_fst :
    ∀ (files : List PluginFile) (acc : List (String × Tool) × List LogEntry),
      ((files.foldl processFile acc).1) = (streamOf files).foldl addTool acc.1 := by
  intro files
  induction files with
  | nil => intro acc; rfl
  | cons f fs ih =>
    intro acc
    rw [List.foldl_cons, ih, streamOf_cons]
    cases hc : f.content with
    | importError err =>
      have h1 : fileOkTools f = [] := by unfold fileOkTools; rw [hc]
      have h2 : (processFile acc f).1 = acc.1 := by unfold processFile; rw [hc]
      rw [h1, List.nil_append, h2]
    | module cs =>
      have h1 : fileOkTools f = cs.filterMap (fun c =>
          match c with
          | ClassResult.ok t => some t
          | ClassResult.constructError _ _ => none) := by
        unfold fileOkTools; rw [hc]
      have h2 : (processFile acc f).1 = (cs.foldl (processClass f.name) acc).1 := by
        unfold processFile; rw [hc]
      rw [h2, foldl_processClass_fst, h1, List.foldl_append]

theorem lookupTool_cons (p : String × Tool) (ps : List (String × Tool)) (n : String) :
    lookupTool (p :: ps) n = if (p.1 == n) = true then some p.2 else lookupTool ps n := by
  unfold lookupTool
  by_cases h : (p.1 == n) = true
  · simp [List.find?, h]
  · simp [List.find?, h]

theorem lookupTool_isSome (tools : List (String × Tool)) (n : String) :
    (lookupTool tools n).isSome = hasToolName tools n := by
  induction tools with
  | nil => rfl
  | cons p ps ih =>
    rw [lookupTool_cons]
    by_cases h : (p.1 == n) = true
    · simp [hasToolName, h]
    · have h' : (p.1 == n) = false := by simpa using h
      simp only [h', Bool.false_eq_true, if_false]
      rw [ih]
      simp [hasToolName, List.any_cons, h']

theorem lookupTool_append (xs ys : List (String × Tool)) (n : String) :
    lookupTool (xs ++ ys) n =
      match lookupTool xs n with
      | some t => some t
      | none => lookupTool ys n := by
  induction xs with
  | nil => rfl
  | cons p ps ih =>
    rw [List.cons_append, lookupTool_cons, lookupTool_cons]
    by_cases h : (p.1 == n) = true
    · simp [h]
    · simp [h, ih]

theorem addTool_pos (tools : List (String × Tool)) (t : Tool)
    (h : hasToolName tools t.name = true) : addTool tools t = tools := by
  unfold addTool
  rw [if_pos h]

theorem addTool_neg (tools : List (String × Tool)) (t : Tool)
    (h : ¬ hasToolName tools t.name = true) :
    addTool tools t = tools ++ [(t.name, t)] := by
  unfold addTool
  rw [if_neg h]

theorem find?_name_cons (t : Tool) (ts : List Tool) (n : String) :
    (t :: ts).find? (fun u => u.name == n) =
      if (t.name == n) = true then some t else ts.find? (fun u => u.name == n) := by
  by_cases h : (t.name == n) = true
  · simp [List.find?, h]
  · simp [List.find?, h]

theorem lookupTool_foldl_addTool (n : String) :
    ∀ (l : List Tool) (init : List (String × Tool)),
      lookupTool (l.foldl addTool init) n =
        match lookupTool init n with
        | some t => some t
        | none => l.find? (fun t => t.name == n) := by
  intro l
  induction l with
  | nil => intro init; cases h : lookupTool init n <;> simp [h]
  | cons t ts ih =>
    intro init
    rw [List.foldl_cons, find?_name_cons]
    by_cases hhas : hasToolName init t.name = true
    · rw [addTool_pos init t hhas, ih]
      cases hinit : lookupTool init n with
      | some u => rfl
      | none =>
        have hn : (t.name == n) = false := by
          by_cases habs : (t.name == n) = true
          · have ht : t.name = n := by simpa using habs
            rw [ht] at hhas
            rw [← lookupTool_isSome, hinit] at hhas
            cases hhas
          · simpa using habs
        rw [hn]
        simp
    · rw [addTool_neg init t hhas, ih, lookupTool_append]
      cases hinit : lookupTool init n with
      | some u => rfl
      | none =>
        by_cases hn : (t.name == n) = true
        · rw [hn, lookupTool_cons]
          simp [hn]
        · have hn' : (t.name == n) = false := by simpa using hn
          rw [hn', lookupTool_cons]
          simp only [hn', Bool.false_eq_true, if_false]
          rfl

theorem foldl_addTool_keys :
    ∀ (l : List Tool) (init : List (String × Tool)),
      (∀ p ∈ init, p.1 = p.2.name) →
      ∀ p ∈ l.foldl addTool init, p.1 = p.2.name := by
  intro l
  induction l with
  | nil => intro init h; exact h
  | cons t ts ih =>
    intro init h
    rw [List.foldl_cons]
    apply ih
    unfold addTool
    by_cases hhas : hasToolName init t.name = true
    · rw [if_pos hhas]; exact h
    · rw [if_neg hhas]
      intro p hp
      rcases List.mem_append.mp hp with hp | hp
      · exact h p hp
      · rw [List.mem_singleton] at hp
        subst hp
        rfl

theorem loadTools_keys (dir : Option (List PluginFile)) :
    ∀ p ∈ (loadTools dir).1, p.1 = p.2.name := by
  cases dir with
  | none => intro p hp; cases hp
  | some files =>
    show ∀ p ∈ ((eligibleFiles files).foldl processFile ([], [])).1, p.1 = p.2.name
    rw [foldl_processFile_fst]
    exact foldl_addTool_keys _ _ (by intro p hp; cases hp)

theorem find?_map_replace (t : Tool) (n : String) (hne : (t.name == n) = false) :
    ∀ reg : List Tool,
      (reg.map (fun u => if u.name == t.name then t else u)).find? (fun u => u.name == n) =
        reg.find? (fun u => u.name == n) := by
  intro reg
  induction reg with
  | nil => rfl
  | cons u us ih =>
    rw [List.map_cons]
    by_cases hu : (u.name == t.name) = true
    · have hu' : u.name = t.name := by simpa using hu
      have hun : (u.name == n) = false := by rw [hu']; exact hne
      rw [if_pos hu, find?_name_cons, find?_name_cons, hne, hun]
      simp only [Bool.false_eq_true, if_false]
      exact ih
    · rw [if_neg hu, find?_name_cons, find?_name_cons]
      by_cases hun : (u.name == n) = true
      · rw [hun]
        rfl
      · have h2 : (u.name == n) = false := by simpa using hun
        rw [h2]
        simp only [Bool.false_eq_true, if_false]
        exact ih

theorem find?_append_not_found (xs : List Tool) (t : Tool) (n : String)
    (hne : (t.name == n) = false) :
    (xs ++ [t]).find? (fun u => u.name == n) = xs.find? (fun u => u.name == n) := by
  induction xs with
  | nil => simp [List.find?, hne]
  | cons u us ih =>
    rw [List.cons_append, find?_name_cons, find?_name_cons]
    by_cases hun : (u.name == n) = true
    · rw [hun]
      rfl
    · have h2 : (u.name == n) = false := by simpa using hun
      rw [h2]
      simp only [Bool.false_eq_true, if_false]
      exact ih

theorem lookup_register_ne (reg : ToolRegistry) (t : Tool) (n : String)
    (h : ¬ t.name = n) : (reg.register t).lookup n = reg.lookup n := by
  have hne : (t.name == n) = false := by simpa using h
  unfold ToolRegistry.register ToolRegistry.lookup
  by_cases hhas : reg.has t.name
  · rw [if_pos hhas]
    exact find?_map_replace t n hne reg
  · rw [if_neg hhas]
    exact find?_append_not_found reg t n hne

theorem registerIntoStep_pos (acc : ToolRegistry × List LogEntry) (p : String × Tool)
    (h : acc.1.has p.1 = true) :
    registerIntoStep acc p = (acc.1, acc.2 ++ [pluginSkippedLog p.1]) := by
  unfold registerIntoStep
  rw [if_pos h]

theorem registerIntoStep_neg (acc : ToolRegistry × List LogEntry) (p : String × Tool)
    (h : ¬ acc.1.has p.1 = true) :
    registerIntoStep acc p = (acc.1.register p.2, acc.2 ++ [pluginRegisteredLog p.1]) := by
  unfold registerIntoStep
  rw [if_neg h]

theorem registerInto_fold_lookup :
    ∀ (plugins : List (String × Tool)) (acc : ToolRegistry × List LogEntry) (n : String),
      (∀ p ∈ plugins, p.1 = p.2.name) → acc.1.has n = true →
      ((plugins.foldl registerIntoStep acc).1).lookup n = acc.1.lookup n := by
  intro plugins
  induction plugins with
  | nil => intro acc n _ _; rfl
  | cons p ps ih =>
    intro acc n hkeys hhas
    rw [List.foldl_cons]
    have hkeys' : ∀ q ∈ ps, q.1 = q.2.name := fun q hq => hkeys q (List.mem_cons_of_mem p hq)
    by_cases hp : acc.1.has p.1 = true
    · rw [registerIntoStep_pos acc p hp]
      exact ih _ n hkeys' hhas
    · rw [registerIntoStep_neg acc p hp]
      have hpname : p.1 = p.2.name := hkeys p (List.mem_cons_self p ps)
      have hne : ¬ p.2.name = n := by
        intro habs
        apply hp
        rw [hpname, habs]
        exact hhas
      have hreg : ((acc.1.register p.2) : ToolRegistry).has n = true :=
        (has_register_true_iff _ _ _).mpr (Or.inl hhas)
      rw [ih (acc.1.register p.2, acc.2 ++ [pluginRegisteredLog p.1]) n hkeys' hreg]
      exact lookup_register_ne acc.1 p.2 n hne

theorem filterMap_ok_filter (cs : List ClassResult) :
    (cs.filter (fun c =>
        match c with
        | ClassResult.ok _ => true
        | ClassResult.constructError _ _ => false)).filterMap (fun c =>
        match c with
        | ClassResult.ok t => some t
        | ClassResult.constructError _ _ => none) =
      cs.filterMap (fun c =>
        match c with
        | ClassResult.ok t => some t
        | ClassResult.constructError _ _ => none) := by
  induction cs with
  | nil => rfl
  | cons c cts ih =>
    cases c with
    | ok t => simp [List.filter_cons, List.filterMap_cons, ih]
    | constructError a b => simp [List.filter_cons, List.filterMap_cons, ih]

theorem fileOkTools_cleanse (f : PluginFile) :
    fileOkTools (cleanseFile f) = fileOkTools f := by
  obtain ⟨nm, content⟩ := f
  cases content with
  | importError err => rfl
  | module cs => exact filterMap_ok_filter cs

theorem cleanseFile_name (f : PluginFile) : (cleanseFile f).name = f.name := rfl

theorem insertFile_cons (f g : PluginFile) (gs : List PluginFile) :
    insertFile f (g :: gs) =
      if strLe f.name g.name = true then f :: g :: gs else g :: insertFile f gs := rfl

theorem insertFile_cleanse (f : PluginFile) :
    ∀ l : List PluginFile,
      insertFile (cleanseFile f) (l.map cleanseFile) = (insertFile f l).map cleanseFile := by
  intro l
  induction l with
  | nil => rfl
  | cons g gs ih =>
    rw [List.map_cons, insertFile_cons, insertFile_cons, cleanseFile_name, cleanseFile_name]
    by_cases h : strLe f.name g.name = true
    · rw [if_pos h, if_pos h, List.map_cons, List.map_cons]
    · rw [if_neg h, if_neg h, List.map_cons, ih]

theorem sortFiles_cleanse :
    ∀ l : List PluginFile,
      sortFiles (l.map cleanseFile) = (sortFiles l).map cleanseFile := by
  intro l
  induction l with
  | nil => rfl
  | cons f fs ih =>
    rw [List.map_cons]
    unfold sortFiles
    rw [ih]
    exact insertFile_cleanse f (sortFiles fs)

theorem filter_cleanse :
    ∀ l : List PluginFile,
      ((l.map cleanseFile).filter (fun f => !(startsWithUnderscore f.name))) =
        (l.filter (fun f => !(startsWithUnderscore f.name))).map cleanseFile := by
  intro l
  induction l with
  | nil => rfl
  | cons f fs ih =>
    rw [List.map_cons, List.filter_cons, List.filter_cons]
    simp only [cleanseFile_name]
    by_cases h : (!(startsWithUnderscore f.name)) = true
    · rw [if_pos h, if_pos h, List.map_cons, ih]
    · rw [if_neg h, if_neg h]
      exact ih

theorem streamOf_cleanse :
    ∀ l : List PluginFile,
      streamOf (l.map cleanseFile) = streamOf l := by
  intro l
  induction l with
  | nil => rfl
  | cons f fs ih =>
    rw [List.map_cons, streamOf_cons, streamOf_cons, ih, fileOkTools_cleanse]

theorem loadTools_cleanse (files : List PluginFile) :
    (loadTools (some (cleanseFiles files))).1 = (loadTools (some files)).1 := by
  show ((eligibleFiles (cleanseFiles files)).foldl processFile ([], [])).1 =
    ((eligibleFiles files).foldl processFile ([], [])).1
  rw [foldl_processFile_fst, foldl_processFile_fst]
  congr 1
  unfold eligibleFiles cleanseFiles
  rw [sortFiles_cleanse, filter_cleanse, streamOf_cleanse]

theorem processClass_logs_mono (fname : String)
    (acc : List (String × Tool) × List LogEntry) (c : ClassResult) (l : LogEntry)
    (h : l ∈ acc.2) : l ∈ (processClass fname acc c).2 := by
  cases c with
  | constructError a b => exact List.mem_append.mpr (Or.inl h)
  | ok t =>
    by_cases hc : hasToolName acc.1 t.name = true
    · show l ∈ (if hasToolName acc.1 t.name = true then
          (acc.1, acc.2 ++ [dupToolLog t.name fname])
        else (acc.1 ++ [(t.name, t)], acc.2)).2
      rw [if_pos hc]
      exact List.mem_append.mpr (Or.inl h)
    · show l ∈ (if hasToolName acc.1 t.name = true then
          (acc.1, acc.2 ++ [dupToolLog t.name fname])
        else (acc.1 ++ [(t.name, t)], acc.2)).2
      rw [if_neg hc]
      exact h

theorem foldl_processClass_logs_mono (fname : String) :
    ∀ (cs : List ClassResult) (acc : List (String × Tool) × List LogEntry) (l : LogEntry),
      l ∈ acc.2 → l ∈ (cs.foldl (processClass fname) acc).2 := by
  intro cs
  induction cs with
  | nil => intro acc l h; exact h
  | cons c cts ih =>
    intro acc l h
    rw [List.foldl_cons]
    exact ih _ l (processClass_logs_mono fname acc c l h)

theorem processFile_logs_mono (acc : List (String × Tool) × List LogEntry)
    (f : PluginFile) (l : LogEntry) (h : l ∈ acc.2) : l ∈ (processFile acc f).2 := by
  unfold processFile
  cases hc : f.content with
  | importError err => exact List.mem_append.mpr (Or.inl h)
  | module cs => exact foldl_processClass_logs_mono f.name cs acc l h

theorem foldl_processFile_logs_mono :
    ∀ (files : List PluginFile) (acc : List (String × Tool) × List LogEntry) (l : LogEntry),
      l ∈ acc.2 → l ∈ (files.foldl processFile acc).2 := by
  intro files
  induction files with
  | nil => intro acc l h; exact h
  | cons f fs ih =>
    intro acc l h
    rw [List.foldl_cons]
    exact ih _ l (processFile_logs_mono acc f l h)

theorem foldl_processFile_import_logged :
    ∀ (files : List PluginFile) (acc : List (String × Tool) × List LogEntry)
      (f : PluginFile) (err : String),
      f ∈ files → f.content = FileContent.importError err →
      importFailLog f.name err ∈ (files.foldl processFile acc).2 := by
  intro files
  induction files with
  | nil => intro acc f err h; cases h
  | cons g gs ih =>
    intro acc f err hmem hc
    rw [List.foldl_cons]
    rcases List.mem_cons.mp hmem with heq | hmem
    · subst heq
      apply foldl_processFile_logs_mono
      unfold processFile
      rw [hc]
      exact List.mem_append.mpr (Or.inr (List.mem_singleton.mpr rfl))
    · exact ih _ f err hmem hc

end Nanobot

namespace Nanobot

/-- First-wins insertion never removes a name from the mapping. -/
theorem hasToolName_addTool_mono (tools : List (String × Tool)) (t : Tool) (n : String)
    (h : hasToolName tools n = true) : hasToolName (addTool tools t) n = true := by
  unfold addTool
  by_cases hc : hasToolName tools t.name = true
  · rw [if_pos hc]; exact h
  · rw [if_neg hc]
    unfold hasToolName at *
    rw [List.any_append]
    simp [h]

/-- Folding first-wins insertions never removes a name. -/
theorem hasToolName_foldl_addTool_mono :
    ∀ (l : List Tool) (init : List (String × Tool)) (n : String),
      hasToolName init n = true → hasToolName (l.foldl addTool init) n = true := by
  intro l
  induction l with
  | nil => intro init n h; exact h
  | cons t ts ih =>
    intro init n h
    rw [List.foldl_cons]
    exact ih _ n (hasToolName_addTool_mono init t n h)

/-- After inserting a tool, its name is in the mapping. -/
theorem hasToolName_addTool_self (tools : List (String × Tool)) (t : Tool) :
    hasToolName (addTool tools t) t.name = true := by
  unfold addTool
  by_cases hc : hasToolName tools t.name = true
  · rw [if_pos hc]; exact hc
  · rw [if_neg hc]
    unfold hasToolName
    rw [List.any_append]
    simp

/-- A name carried by any tool of the stream is in the folded mapping. -/
theorem hasToolName_foldl_addTool_of_mem :
    ∀ (l : List Tool) (init : List (String × Tool)) (u : Tool) (n : String),
      u ∈ l → u.name = n → hasToolName (l.foldl addTool init) n = true := by
  intro l
  induction l with
  | nil => intro init u n h; cases h
  | cons v vs ih =>
    intro init u n hmem hname
    rw [List.foldl_cons]
    rcases List.mem_cons.mp hmem with heq | hmem
    · subst heq
      apply hasToolName_foldl_addTool_mono
      rw [← hname]
      exact hasToolName_addTool_self init u
    · exact ih _ u n hmem hname

/-- A successfully constructed tool whose name is already in the dict
leaves the duplicate diagnostic (`plugins.py` line 107). -/
theorem processClass_dup_logged (fname : String)
    (acc : List (String × Tool) × List LogEntry) (t : Tool)
    (h : hasToolName acc.1 t.name = true) :
    dupToolLog t.name fname ∈ (processClass fname acc (ClassResult.ok t)).2 := by
  show dupToolLog t.name fname ∈ (if hasToolName acc.1 t.name = true then
      (acc.1, acc.2 ++ [dupToolLog t.name fname])
    else (acc.1 ++ [(t.name, t)], acc.2)).2
  rw [if_pos h]
  exact List.mem_append.mpr (Or.inr (List.mem_singleton.mpr rfl))

/-- If an earlier eligible file already yielded a tool with a name, a
later eligible file successfully constructing a tool with that same name
leaves the duplicate diagnostic in the load's log. -/
theorem loadTools_dup_logged (files : List PluginFile)
    (fs1 fs2 : List PluginFile) (g : PluginFile)
    (cs1 cs2 : List ClassResult) (t : Tool)
    (hdecomp : eligibleFiles files = fs1 ++ g :: fs2)
    (hcontent : g.content = FileContent.module (cs1 ++ ClassResult.ok t :: cs2))
    (hearlier : ∃ u ∈ streamOf fs1, u.name = t.name) :
    dupToolLog t.name g.name ∈ (loadTools (some files)).2 := by
  show dupToolLog t.name g.name ∈ ((eligibleFiles files).foldl processFile ([], [])).2
  rw [hdecomp, List.foldl_append, List.foldl_cons]
  apply foldl_processFile_logs_mono
  have hpf : processFile (fs1.foldl processFile ([], [])) g =
      (cs1 ++ ClassResult.ok t :: cs2).foldl (processClass g.name)
        (fs1.foldl processFile ([], [])) := by
    unfold processFile
    rw [hcontent]
  rw [hpf, List.foldl_append, List.foldl_cons]
  apply foldl_processClass_logs_mono
  apply processClass_dup_logged
  rw [foldl_processClass_fst]
  apply hasToolName_foldl_addTool_mono
  rw [foldl_processFile_fst]
  obtain ⟨u, hu, hun⟩ := hearlier
  exact hasToolName_foldl_addTool_of_mem (streamOf fs1) _ u t.name hu hun

/-- A class that raises during construction leaves its warning
diagnostic (`plugins.py` line 102). -/
theorem foldl_processClass_construct_logged (fname : String) :
    ∀ (cs : List ClassResult) (acc : List (String × Tool) × List LogEntry)
      (cname err : String),
      ClassResult.constructError cname err ∈ cs →
      constructFailLog cname fname err ∈ (cs.foldl (processClass fname) acc).2 := by
  intro cs
  induction cs with
  | nil => intro acc cname err h; cases h
  | cons c cts ih =>
    intro acc cname err hmem
    rw [List.foldl_cons]
    rcases List.mem_cons.mp hmem with heq | hmem
    · subst heq
      apply foldl_processClass_logs_mono
      exact List.mem_append.mpr (Or.inr (List.mem_singleton.mpr rfl))
    · exact ih _ cname err hmem

/-- A constructor failure inside any processed file leaves its warning
diagnostic in the accumulated log. -/
theorem foldl_processFile_construct_logged :
    ∀ (files : List PluginFile) (acc : List (String × Tool) × List LogEntry)
      (g : PluginFile) (cs : List ClassResult) (cname err : String),
      g ∈ files → g.content = FileContent.module cs →
      ClassResult.constructError cname err ∈ cs →
      constructFailLog cname g.name err ∈ (files.foldl processFile acc).2 := by
  intro files
  induction files with
  | nil => intro acc g cs cname err h; cases h
  | cons f fs ih =>
    intro acc g cs cname err hmem hc hcs
    rw [List.foldl_cons]
    rcases List.mem_cons.mp hmem with heq | hmem
    · subst heq
      apply foldl_processFile_logs_mono
      have hpf : processFile acc g = cs.foldl (processClass g.name) acc := by
        unfold processFile
        rw [hc]
      rw [hpf]
      exact foldl_processClass_construct_logged g.name cs acc cname err hcs
    · exact ih _ g cs cname err hmem hc hcs

/-- C7: merging loaded plugins into a registry keeps the registry's
existing (built-in) entry for any name it already has; across the whole
load, a name resolves to the first successfully instantiated tool
carrying it in traversal order (files sorted lexicographically,
underscore files skipped), so of two plugin files defining the same name
only the lexicographically first file's tool is kept; and a later file's
same-named tool is dropped with the duplicate diagnostic. -/
theorem plugin_name_collision (files : List PluginFile) (reg : ToolRegistry) (n : String) :
    (reg.has n = true →
      ((register_into reg (loadTools (some files)).1).1).lookup n = reg.lookup n) ∧
    lookupTool (loadTools (some files)).1 n =
      (successfulStream files).find? (fun t => t.name == n) ∧
    (∀ (fs1 fs2 : List PluginFile) (g : PluginFile) (cs1 cs2 : List ClassResult) (t : Tool),
      eligibleFiles files = fs1 ++ g :: fs2 →
      g.content = FileContent.module (cs1 ++ ClassResult.ok t :: cs2) →
      (∃ u ∈ streamOf fs1, u.name = t.name) →
      dupToolLog t.name g.name ∈ (loadTools (some files)).2) := by
  refine ⟨?_, ?_, ?_⟩
  · intro hhas
    exact registerInto_fold_lookup (loadTools (some files)).1 (reg, []) n
      (loadTools_keys (some files)) hhas
  · show lookupTool ((eligibleFiles files).foldl processFile ([], [])).1 n = _
    rw [foldl_processFile_fst, lookupTool_foldl_addTool]
    rfl
  · intro fs1 fs2 g cs1 cs2 t hdecomp hcontent hearlier
    exact loadTools_dup_logged files fs1 fs2 g cs1 cs2 t hdecomp hcontent hearlier

/-- Witness for C7: a registry holding a built-in "alpha" keeps it when a
plugin file also defines "alpha"; and with two files both defining
"dice", the later file leaves the duplicate diagnostic. -/
theorem plugin_name_collision_witness :
    (ToolRegistry.lookup
      ((register_into [⟨"alpha", 7⟩]
        (loadTools (some [⟨"p.py", FileContent.module [ClassResult.ok ⟨"alpha", 1⟩]⟩])).1).1)
      "alpha" = ToolRegistry.lookup [⟨"alpha", 7⟩] "alpha") ∧
    dupToolLog "dice" "b.py" ∈
      (loadTools (some [⟨"a.py", FileContent.module [ClassResult.ok ⟨"dice", 1⟩]⟩,
        ⟨"b.py", FileContent.module [ClassResult.ok ⟨"dice", 2⟩]⟩])).2 :=
  ⟨(plugin_name_collision [⟨"p.py", FileContent.module [ClassResult.ok ⟨"alpha", 1⟩]⟩]
      [⟨"alpha", 7⟩] "alpha").1 rfl,
    (plugin_name_collision
      [⟨"a.py", FileContent.module [ClassResult.ok ⟨"dice", 1⟩]⟩,
        ⟨"b.py", FileContent.module [ClassResult.ok ⟨"dice", 2⟩]⟩] [] "dice").2.2
      [⟨"a.py", FileContent.module [ClassResult.ok ⟨"dice", 1⟩]⟩] []
      ⟨"b.py", FileContent.module [ClassResult.ok ⟨"dice", 2⟩]⟩ [] [] ⟨"dice", 2⟩
      rfl rfl ⟨⟨"dice", 1⟩, by decide, rfl⟩⟩

/-- C8: a missing tools directory short-circuits the load to an empty
mapping; removing every import failure and every constructor failure from
a directory leaves the loaded mapping unchanged (failures only remove
themselves — tools from well-formed files are still returned); an
eligible file that fails to import leaves its warning diagnostic in the
load's log; and a tool type that raises during construction leaves its
warning diagnostic too. -/
theorem plugin_failure_isolation :
    (loadTools none).1 = [] ∧
    (∀ files : List PluginFile,
      (loadTools (some (cleanseFiles files))).1 = (loadTools (some files)).1) ∧
    (∀ (files : List PluginFile) (f : PluginFile) (err : String),
      f ∈ eligibleFiles files → f.content = FileContent.importError err →
      importFailLog f.name err ∈ (loadTools (some files)).2) ∧
    (∀ (files : List PluginFile) (g : PluginFile) (cs : List ClassResult)
      (cname err : String),
      g ∈ eligibleFiles files → g.content = FileContent.module cs →
      ClassResult.constructError cname err ∈ cs →
      constructFailLog cname g.name err ∈ (loadTools (some files)).2) := by
  refine ⟨rfl, loadTools_cleanse, ?_, ?_⟩
  · intro files f err hmem hc
    exact foldl_processFile_import_logged (eligibleFiles files) ([], []) f err hmem hc
  · intro files g cs cname err hmem hc hcs
    exact foldl_processFile_construct_logged (eligibleFiles files) ([], []) g cs cname err
      hmem hc hcs

/-- Witness for C8: a directory with one broken file and one file holding
a good tool plus a failing constructor logs both the import failure and
the constructor failure. -/
theorem plugin_failure_isolation_witness :
    (importFailLog "broken.py" "boom" ∈
      (loadTools (some [⟨"broken.py", FileContent.importError "boom"⟩,
        ⟨"good.py", FileContent.module [ClassResult.ok ⟨"dice", 1⟩,
          ClassResult.constructError "Bad" "ctor"]⟩])).2) ∧
    (constructFailLog "Bad" "good.py" "ctor" ∈
      (loadTools (some [⟨"broken.py", FileContent.importError "boom"⟩,
        ⟨"good.py", FileContent.module [ClassResult.ok ⟨"dice", 1⟩,
          ClassResult.constructError "Bad" "ctor"]⟩])).2) :=
  ⟨plugin_failure_isolation.2.2.1
      [⟨"broken.py", FileContent.importError "boom"⟩,
        ⟨"good.py", FileContent.module [ClassResult.ok ⟨"dice", 1⟩,
          ClassResult.constructError "Bad" "ctor"]⟩]
      ⟨"broken.py", FileContent.importError "boom"⟩ "boom" (by decide) rfl,
    plugin_failure_isolation.2.2.2
      [⟨"broken.py", FileContent.importError "boom"⟩,
        ⟨"good.py", FileContent.module [ClassResult.ok ⟨"dice", 1⟩,
          ClassResult.constructError "Bad" "ctor"]⟩]
      ⟨"good.py", FileContent.module [ClassResult.ok ⟨"dice", 1⟩,
        ClassResult.constructError "Bad" "ctor"]⟩
      [ClassResult.ok ⟨"dice", 1⟩, ClassResult.constructError "Bad" "ctor"]
      "Bad" "ctor" (by decide) rfl (by decide)⟩

/-- C9: after a first `load` has filled the cache, every further `load`
returns exactly the first call's mapping and leaves the cache untouched,
even if the directory contents have changed meanwhile — no re-scan
happens; and the first call's result is the directory scan. -/
theorem plugin_load_memoized (dir1 dir2 : Option (List PluginFile)) :
    loadMemo dir2 (loadMemo dir1 none).2 = ((loadMemo dir1 none).1, (loadMemo dir1 none).2) ∧
    (loadMemo dir1 none).1 = (loadTools dir1).1 := by
  constructor
  · rfl
  · rfl

end Nanobot
